import Mathlib

/-!
Shallow embedding of the simulation core of `src/js_balls.js`.

The JavaScript source drives a 2D ball simulation: a `PlayGround` object owns a
list of `Circle` objects and, on every timer tick, runs
`checkForBallCollisions`, `handleDeletions`, `checkForWallCollisions` and then
`updatePositions`.  Numbers are modelled by an arbitrary linear ordered
commutative ring (the simulation itself uses only `+ - * max abs < ≤`;
executable witnesses instantiate it at `ℤ`, and the square root taken at spawn
time is modelled at `ℝ`); JavaScript float arithmetic is idealised as exact
arithmetic.  DOM and audio side effects (`el.setAttribute`, `play()`) are
dropped: they do not touch the simulation state.
-/

set_option linter.unusedSectionVars false

namespace JsBalls

/-- Constant `MAX_VELOCITY = 3` from line 43 of the source. -/
def MAX_VELOCITY : ℝ := 3

/-- Velocity record `this.info.velocity` with fields `x`, `y`. -/
structure Velocity (α : Type) where
  x : α
  y : α
  deriving DecidableEq

/-- Geometry record `this.info` of a circle: center `cx, cy`, radius `r`,
and the velocity installed by `initialize`. -/
structure Info (α : Type) where
  cx : α
  cy : α
  r : α
  velocity : Velocity α
  deriving DecidableEq

/-- State of one `Circle` object: its `info` record, its integer `strength`
(produced by `getClickType`, a nonnegative integer), the `collided` flag and
the `html_id` assigned from the playground counter. -/
structure Circle (α : Type) where
  info : Info α
  strength : ℕ
  collided : Bool
  html_id : ℕ
  deriving DecidableEq

/-- Dimensions `document.body.clientWidth` / `clientHeight` read by
`checkForWallCollision`. -/
structure Bounds (α : Type) where
  clientWidth : α
  clientHeight : α
  deriving DecidableEq

variable {α : Type} [LinearOrderedCommRing α]

/-- Method `Circle.checkForWallCollision` (source lines 291-309): each axis is
an `if / else if` chain; a violated right (resp. bottom) wall forces the
velocity component to `-Math.abs v`, otherwise a violated left (resp. top)
wall forces it to `Math.abs v`. -/
def Circle.checkForWallCollision (b : Bounds α) (c : Circle α) : Circle α :=
  let vx :=
    if c.info.cx + c.info.r > b.clientWidth then -|c.info.velocity.x|
    else if c.info.cx - c.info.r < 0 then |c.info.velocity.x|
    else c.info.velocity.x
  let vy :=
    if c.info.cy + c.info.r > b.clientHeight then -|c.info.velocity.y|
    else if c.info.cy - c.info.r < 0 then |c.info.velocity.y|
    else c.info.velocity.y
  { c with info := { c.info with velocity := ⟨vx, vy⟩ } }

/-- Method `Circle.update` (source lines 320-350): integrate the position by
`velocity * time`, then, if the `collided` flag is set: with positive strength
decrement the strength and clear the flag, otherwise shrink the radius by one,
floored at `0` (`Math.max(this.info.r - 1, 0)`), leaving the flag set. -/
def Circle.update (time : α) (c : Circle α) : Circle α :=
  let moved : Circle α :=
    { c with info := { c.info with
        cx := c.info.cx + c.info.velocity.x * time,
        cy := c.info.cy + c.info.velocity.y * time } }
  if moved.collided then
    if 0 < moved.strength then
      { moved with strength := moved.strength - 1, collided := false }
    else
      { moved with info := { moved.info with r := max (moved.info.r - 1) 0 } }
  else moved

example :
    (Circle.checkForWallCollision ⟨100, 100⟩
      ⟨⟨99, 50, 5, ⟨2, 0⟩⟩, 1, false, 0⟩ : Circle ℤ) =
      ⟨⟨99, 50, 5, ⟨-2, 0⟩⟩, 1, false, 0⟩ := by decide

example :
    (Circle.update 1 ⟨⟨10, 10, 5, ⟨2, 1⟩⟩, 1, true, 0⟩ : Circle ℤ) =
      ⟨⟨12, 11, 5, ⟨2, 1⟩⟩, 0, false, 0⟩ := by decide

example :
    (Circle.update 1 ⟨⟨10, 10, 5, ⟨2, 1⟩⟩, 0, true, 0⟩ : Circle ℤ) =
      ⟨⟨12, 11, 4, ⟨2, 1⟩⟩, 0, true, 0⟩ := by decide

/-- Square of the Euclidean distance computed by `PlayGround.getDistance`
(source lines 151-157).  The source returns
`Math.sqrt(xDelta^2 + yDelta^2)`; every use of the source value is a
comparison `getDistance < sum`, embedded here square-free via
`getDistance_lt_iff` below. -/
def PlayGround.getDistanceSq (c1 c2 : Circle α) : α :=
  (c1.info.cx - c2.info.cx) ^ 2 + (c1.info.cy - c2.info.cy) ^ 2

/-- Collision condition of `checkForBallCollisions` (source line 195):
`distance < r1 + r2` where `distance` is the Euclidean distance between the
centers.  Encoded without the square root: for a nonnegative radicand,
`sqrt d < s` holds iff `0 < s` and `d < s^2` (`getDistance_lt_iff`). -/
def ballsCollide (c1 c2 : Circle α) : Prop :=
  0 < c1.info.r + c2.info.r ∧
    PlayGround.getDistanceSq c1 c2 < (c1.info.r + c2.info.r) ^ 2

instance (c1 c2 : Circle α) : Decidable (ballsCollide c1 c2) := by
  unfold ballsCollide
  infer_instance

/-- Justification of the square-free encoding: over the reals, the source
comparison `Math.sqrt(xDelta^2 + yDelta^2) < r1 + r2` agrees with
`ballsCollide`. -/
theorem getDistance_lt_iff (c1 c2 : Circle ℝ) :
    Real.sqrt ((c1.info.cx - c2.info.cx) ^ 2 + (c1.info.cy - c2.info.cy) ^ 2)
        < c1.info.r + c2.info.r ↔ ballsCollide c1 c2 := by
  constructor
  · intro h
    have hpos : 0 < c1.info.r + c2.info.r :=
      lt_of_le_of_lt (Real.sqrt_nonneg _) h
    exact ⟨hpos, (Real.sqrt_lt' hpos).mp h⟩
  · rintro ⟨hpos, hlt⟩
    exact (Real.sqrt_lt' hpos).mpr hlt

theorem ballsCollide_symm (c1 c2 : Circle α) :
    ballsCollide c1 c2 ↔ ballsCollide c2 c1 := by
  have e1 : (c2.info.cx - c1.info.cx) ^ 2 = (c1.info.cx - c2.info.cx) ^ 2 := by ring
  have e2 : (c2.info.cy - c1.info.cy) ^ 2 = (c1.info.cy - c2.info.cy) ^ 2 := by ring
  have e3 : c2.info.r + c1.info.r = c1.info.r + c2.info.r := add_comm _ _
  unfold ballsCollide PlayGround.getDistanceSq
  rw [e1, e2, e3]

/-- Setting the `collided` flag of either circle does not change the collision
condition, which reads only the geometry. -/
theorem ballsCollide_collided (c1 c2 : Circle α) (b1 b2 : Bool) :
    ballsCollide { c1 with collided := b1 } { c2 with collided := b2 } ↔
      ballsCollide c1 c2 := Iff.rfl

/-- Overlay of a boolean flag function onto the `collided` flags of a list of
circles: position `k` gets its flag OR-ed with `f k`.  The nested marking
loops of `checkForBallCollisions` are normalised into this form. -/
def withFlags : List (Circle α) → (ℕ → Bool) → List (Circle α)
  | [], _ => []
  | c :: cs, f =>
      { c with collided := c.collided || f 0 } :: withFlags cs fun k => f (k + 1)

theorem withFlags_length (cs : List (Circle α)) (f : ℕ → Bool) :
    (withFlags cs f).length = cs.length := by
  induction cs generalizing f with
  | nil => rfl
  | cons c cs ih => simpa [withFlags] using ih _

theorem withFlags_get? (cs : List (Circle α)) (f : ℕ → Bool) (k : ℕ) :
    (withFlags cs f).get? k =
      (cs.get? k).map fun c => { c with collided := c.collided || f k } := by
  induction cs generalizing f k with
  | nil => simp [withFlags]
  | cons c cs ih =>
      cases k with
      | zero => simp [withFlags]
      | succ k => simpa [withFlags] using ih _ k

theorem withFlags_withFlags (cs : List (Circle α)) (f g : ℕ → Bool) :
    withFlags (withFlags cs f) g = withFlags cs fun k => f k || g k := by
  induction cs generalizing f g with
  | nil => rfl
  | cons c cs ih => simp [withFlags, Bool.or_assoc, ih]

theorem withFlags_false (cs : List (Circle α)) :
    withFlags cs (fun _ => false) = cs := by
  induction cs with
  | nil => rfl
  | cons c cs ih => simp [withFlags, ih]

theorem withFlags_congr (cs : List (Circle α)) {f g : ℕ → Bool}
    (h : ∀ k, f k = g k) : withFlags cs f = withFlags cs g := by
  have : f = g := funext h
  rw [this]

/-- Body of the inner loop of `checkForBallCollisions` (source lines 192-201):
for positions `i ≠ j` (the source compares object identities, which for
distinct array slots is position inequality) whose circles overlap, both
`collided` flags are set. -/
def PlayGround.checkPair (cs : List (Circle α)) (i j : ℕ) : List (Circle α) :=
  match cs.get? i, cs.get? j with
  | some c1, some c2 =>
      if i ≠ j ∧ ballsCollide c1 c2 then
        withFlags cs fun k => decide (k = i) || decide (k = j)
      else cs
  | _, _ => cs

/-- Boolean test that the ordered pair `(i, j)` triggers marking, evaluated on
the geometry of `cs`. -/
def hitB (cs : List (Circle α)) (i j : ℕ) : Bool :=
  match cs.get? i, cs.get? j with
  | some c1, some c2 => decide (i ≠ j) && decide (ballsCollide c1 c2)
  | _, _ => false

/-- Method `PlayGround.checkForBallCollisions` (source lines 188-204): the
nested `for c1 in circles` / `for c2 in circles` loops, folding `checkPair`
over all ordered index pairs. -/
def PlayGround.checkForBallCollisions (cs : List (Circle α)) : List (Circle α) :=
  (List.range cs.length).foldl
    (fun acc i =>
      (List.range cs.length).foldl (fun acc2 j => PlayGround.checkPair acc2 i j) acc)
    cs

theorem hitB_eq {cs : List (Circle α)} {i j : ℕ} {c1 c2 : Circle α}
    (hi : cs.get? i = some c1) (hj : cs.get? j = some c2) :
    hitB cs i j = (decide (i ≠ j) && decide (ballsCollide c1 c2)) := by
  unfold hitB
  rw [hi, hj]

theorem hitB_none_left {cs : List (Circle α)} {i j : ℕ}
    (hi : cs.get? i = none) : hitB cs i j = false := by
  unfold hitB
  rw [hi]

theorem hitB_none_right {cs : List (Circle α)} {i j : ℕ}
    (hj : cs.get? j = none) : hitB cs i j = false := by
  unfold hitB
  cases hi : cs.get? i <;> rw [hj]

theorem hitB_lt {cs : List (Circle α)} {i j : ℕ} (h : hitB cs i j = true) :
    i < cs.length ∧ j < cs.length := by
  cases hi : cs.get? i with
  | none => rw [hitB_none_left hi] at h; cases h
  | some c1 =>
      cases hj : cs.get? j with
      | none => rw [hitB_none_right hj] at h; cases h
      | some c2 => exact ⟨(List.get?_eq_some.mp hi).1, (List.get?_eq_some.mp hj).1⟩

theorem hitB_symm (cs : List (Circle α)) (i j : ℕ) :
    hitB cs i j = hitB cs j i := by
  cases hi : cs.get? i with
  | none => rw [hitB_none_left hi, hitB_none_right hi]
  | some c1 =>
      cases hj : cs.get? j with
      | none => rw [hitB_none_right hj, hitB_none_left hj]
      | some c2 =>
          rw [hitB_eq hi hj, hitB_eq hj hi,
            show decide (i ≠ j) = decide (j ≠ i) from decide_eq_decide.mpr ne_comm,
            show decide (ballsCollide c1 c2) = decide (ballsCollide c2 c1) from
              decide_eq_decide.mpr (ballsCollide_symm c1 c2)]

theorem checkPair_eq {cs : List (Circle α)} {i j : ℕ} {c1 c2 : Circle α}
    (hi : cs.get? i = some c1) (hj : cs.get? j = some c2) :
    PlayGround.checkPair cs i j =
      if i ≠ j ∧ ballsCollide c1 c2 then
        withFlags cs fun k => decide (k = i) || decide (k = j)
      else cs := by
  unfold PlayGround.checkPair
  rw [hi, hj]

theorem checkPair_none_left {cs : List (Circle α)} {i j : ℕ}
    (hi : cs.get? i = none) : PlayGround.checkPair cs i j = cs := by
  unfold PlayGround.checkPair
  rw [hi]

theorem checkPair_none_right {cs : List (Circle α)} {i j : ℕ}
    (hj : cs.get? j = none) : PlayGround.checkPair cs i j = cs := by
  unfold PlayGround.checkPair
  cases hi : cs.get? i <;> rw [hj]

theorem withFlags_get?_some {cs : List (Circle α)} {f : ℕ → Bool} {i : ℕ}
    {c : Circle α} (hi : cs.get? i = some c) :
    (withFlags cs f).get? i = some { c with collided := c.collided || f i } := by
  rw [withFlags_get?, hi]
  rfl

theorem withFlags_get?_none {cs : List (Circle α)} {f : ℕ → Bool} {i : ℕ}
    (hi : cs.get? i = none) : (withFlags cs f).get? i = none := by
  rw [withFlags_get?, hi]
  rfl

theorem checkPair_withFlags (cs : List (Circle α)) (f : ℕ → Bool) (i j : ℕ) :
    PlayGround.checkPair (withFlags cs f) i j =
      withFlags cs fun k =>
        f k || (hitB cs i j && (decide (k = i) || decide (k = j))) := by
  cases hi : cs.get? i with
  | none =>
      rw [checkPair_none_left (withFlags_get?_none hi)]
      apply withFlags_congr
      intro k
      rw [hitB_none_left hi, Bool.false_and, Bool.or_false]
  | some c1 =>
      cases hj : cs.get? j with
      | none =>
          rw [checkPair_none_right (withFlags_get?_none hj)]
          apply withFlags_congr
          intro k
          rw [hitB_none_right hj, Bool.false_and, Bool.or_false]
      | some c2 =>
          rw [checkPair_eq (withFlags_get?_some hi) (withFlags_get?_some hj)]
          by_cases h : i ≠ j ∧ ballsCollide c1 c2
          · rw [if_pos ⟨h.1, (ballsCollide_collided c1 c2 _ _).mpr h.2⟩,
              withFlags_withFlags]
            apply withFlags_congr
            intro k
            rw [hitB_eq hi hj, decide_eq_true h.1, decide_eq_true h.2,
              Bool.true_and, Bool.true_and]
          · rw [if_neg fun hc => h ⟨hc.1, (ballsCollide_collided c1 c2 _ _).mp hc.2⟩]
            apply withFlags_congr
            intro k
            have hfalse : (decide (i ≠ j) && decide (ballsCollide c1 c2)) = false := by
              rw [← Bool.decide_and, decide_eq_false_iff_not]
              exact h
            rw [hitB_eq hi hj, hfalse, Bool.false_and, Bool.or_false]

theorem innerLoop_withFlags (cs : List (Circle α)) (i : ℕ) (js : List ℕ) :
    ∀ f : ℕ → Bool,
      js.foldl (fun acc j => PlayGround.checkPair acc i j) (withFlags cs f) =
        withFlags cs fun k =>
          f k || js.any fun j => hitB cs i j && (decide (k = i) || decide (k = j)) := by
  induction js with
  | nil =>
      intro f
      apply withFlags_congr
      intro k
      simp
  | cons j js ih =>
      intro f
      rw [List.foldl_cons, checkPair_withFlags, ih]
      apply withFlags_congr
      intro k
      simp [Bool.or_assoc]

theorem outerLoop_withFlags (cs : List (Circle α)) (n : ℕ) (is : List ℕ) :
    ∀ f : ℕ → Bool,
      is.foldl
          (fun acc i =>
            (List.range n).foldl (fun acc2 j => PlayGround.checkPair acc2 i j) acc)
          (withFlags cs f) =
        withFlags cs fun k =>
          f k || is.any fun i =>
            (List.range n).any fun j =>
              hitB cs i j && (decide (k = i) || decide (k = j)) := by
  induction is with
  | nil =>
      intro f
      apply withFlags_congr
      intro k
      simp
  | cons i is ih =>
      intro f
      rw [List.foldl_cons, innerLoop_withFlags, ih]
      apply withFlags_congr
      intro k
      simp [Bool.or_assoc]

/-- Boolean test that position `i` overlaps some other live circle of `cs`. -/
def hitAnyB (cs : List (Circle α)) (i : ℕ) : Bool :=
  (List.range cs.length).any fun j => hitB cs i j

/-- Normal form of the ball-collision pass: it only OR-s the flag of position
`k` with the overlap test `hitAnyB cs k`. -/
theorem checkForBallCollisions_eq (cs : List (Circle α)) :
    PlayGround.checkForBallCollisions cs = withFlags cs fun k => hitAnyB cs k := by
  have h := outerLoop_withFlags cs cs.length (List.range cs.length) fun _ => false
  rw [withFlags_false] at h
  unfold PlayGround.checkForBallCollisions
  rw [h]
  apply withFlags_congr
  intro k
  rw [Bool.false_or, ← Bool.coe_iff_coe]
  simp only [List.any_eq_true, List.mem_range, hitAnyB, Bool.and_eq_true,
    Bool.or_eq_true, decide_eq_true_eq]
  constructor
  · rintro ⟨i, hi, j, hj, hhit, hk | hk⟩
    · exact ⟨j, hj, by rw [hk]; exact hhit⟩
    · refine ⟨i, hi, ?_⟩
      rw [hk, hitB_symm]
      exact hhit
  · rintro ⟨j, hj, hhit⟩
    exact ⟨k, (hitB_lt hhit).1, j, hj, hhit, Or.inl rfl⟩

/-- Method `PlayGround.handleDeletions` (source lines 163-177): every circle
whose `collided` flag is set and whose radius is `<= 0` is removed from the
list (the source `delete`s the slot; the guarded `for in` iteration makes the
result this filter). -/
def PlayGround.handleDeletions (cs : List (Circle α)) : List (Circle α) :=
  cs.filter fun c => !(c.collided && decide (c.info.r ≤ 0))

/-- Method `PlayGround.checkForWallCollisions` (source lines 207-216):
delegate to each circle. -/
def PlayGround.checkForWallCollisions (b : Bounds α) (cs : List (Circle α)) :
    List (Circle α) :=
  cs.map (Circle.checkForWallCollision b)

/-- Method `PlayGround.updatePositions` (source lines 219-228): delegate to
each circle with `time = 1`. -/
def PlayGround.updatePositions (cs : List (Circle α)) : List (Circle α) :=
  cs.map (Circle.update 1)

/-- Method `PlayGround.checkForCollisions` (source lines 141-146): ball
collisions, then deletions, then wall collisions. -/
def PlayGround.checkForCollisions (b : Bounds α) (cs : List (Circle α)) :
    List (Circle α) :=
  PlayGround.checkForWallCollisions b
    (PlayGround.handleDeletions (PlayGround.checkForBallCollisions cs))

/-- Method `PlayGround.loop` (source lines 239-245), one timer tick:
`checkForCollisions` then `updatePositions`. -/
def PlayGround.loop (b : Bounds α) (cs : List (Circle α)) : List (Circle α) :=
  PlayGround.updatePositions (PlayGround.checkForCollisions b cs)

/-- Iterated ticks: state after `n` invocations of `loop`. -/
def PlayGround.ticks (b : Bounds α) (cs : List (Circle α)) : ℕ → List (Circle α)
  | 0 => cs
  | n + 1 => PlayGround.loop b (PlayGround.ticks b cs n)

/-- Effect of one whole tick on a single body, given the flag `flag` that the
detection pass OR-s onto it: reap when flagged at nonpositive radius,
otherwise bounce off walls and run `update 1`. -/
def tickBody (b : Bounds α) (flag : Bool) (c : Circle α) : Option (Circle α) :=
  let c1 : Circle α := { c with collided := c.collided || flag }
  if c1.collided && decide (c1.info.r ≤ 0) then none
  else some (Circle.update 1 (Circle.checkForWallCollision b c1))

theorem pipeline_eq (b : Bounds α) :
    ∀ (cs : List (Circle α)) (F : ℕ → Bool),
      PlayGround.updatePositions
          (PlayGround.checkForWallCollisions b
            (PlayGround.handleDeletions (withFlags cs F))) =
        (List.range cs.length).filterMap fun i =>
          (cs.get? i).bind (tickBody b (F i)) := by
  intro cs
  induction cs with
  | nil =>
      intro F
      simp [withFlags, PlayGround.handleDeletions, PlayGround.checkForWallCollisions,
        PlayGround.updatePositions]
  | cons c cs ih =>
      intro F
      rw [List.length_cons, List.range_succ_eq_map, List.filterMap_cons,
        List.filterMap_map]
      have htail :
          (List.filterMap ((fun i => ((c :: cs).get? i).bind (tickBody b (F i))) ∘ Nat.succ)
            (List.range cs.length)) =
          (List.filterMap (fun i => (cs.get? i).bind (tickBody b ((fun k => F (k + 1)) i)))
            (List.range cs.length)) := by
        apply congrArg (fun g => List.filterMap g (List.range cs.length))
        funext i
        rfl
      show PlayGround.updatePositions
          (PlayGround.checkForWallCollisions b
            (PlayGround.handleDeletions
              ({ c with collided := c.collided || F 0 } :: withFlags cs fun k => F (k + 1)))) = _
      rw [PlayGround.handleDeletions, List.filter_cons]
      by_cases h :
          ({ c with collided := c.collided || F 0 } : Circle α).collided &&
            decide (({ c with collided := c.collided || F 0 } : Circle α).info.r ≤ 0)
      · rw [if_neg (by rw [h]; simp)]
        have hhead : ((c :: cs).get? 0).bind (tickBody b (F 0)) = none := by
          show (tickBody b (F 0) c : Option (Circle α)) = none
          unfold tickBody
          rw [if_pos h]
        rw [hhead, htail, ← ih fun k => F (k + 1)]
        rfl
      · simp only [Bool.not_eq_true] at h
        rw [if_pos (by rw [h]; rfl)]
        have hhead : ((c :: cs).get? 0).bind (tickBody b (F 0)) =
            some (Circle.update 1 (Circle.checkForWallCollision b
              { c with collided := c.collided || F 0 })) := by
          show (tickBody b (F 0) c : Option (Circle α)) = _
          unfold tickBody
          rw [if_neg (by rw [h]; simp)]
        rw [hhead, htail, ← ih fun k => F (k + 1)]
        rfl

/-- Master decomposition of one tick: `loop` acts on each position
independently through `tickBody`, with the flag computed by the detection
pass, dropping reaped bodies. -/
theorem loop_eq (b : Bounds α) (cs : List (Circle α)) :
    PlayGround.loop b cs =
      (List.range cs.length).filterMap fun i =>
        (cs.get? i).bind (tickBody b (hitAnyB cs i)) := by
  unfold PlayGround.loop PlayGround.checkForCollisions
  rw [checkForBallCollisions_eq]
  exact pipeline_eq b cs fun k => hitAnyB cs k

/-- All `html_id` fields are distinct: guaranteed by the monotone counter of
`createNewCircle` (source line 233). -/
def UniqueIds (cs : List (Circle α)) : Prop :=
  cs.Pairwise fun c1 c2 => c1.html_id ≠ c2.html_id

instance (cs : List (Circle α)) : Decidable (UniqueIds cs) := by
  unfold UniqueIds
  infer_instance

/-- Claim-level overlap test: the circle `c` overlaps some member of `cs` with
a different id. -/
def hitById (cs : List (Circle α)) (c : Circle α) : Prop :=
  ∃ c2 ∈ cs, c2.html_id ≠ c.html_id ∧ ballsCollide c c2

instance (cs : List (Circle α)) (c : Circle α) : Decidable (hitById cs c) := by
  unfold hitById
  infer_instance

theorem checkForWallCollision_cx (b : Bounds α) (c : Circle α) :
    (Circle.checkForWallCollision b c).info.cx = c.info.cx := rfl

theorem checkForWallCollision_cy (b : Bounds α) (c : Circle α) :
    (Circle.checkForWallCollision b c).info.cy = c.info.cy := rfl

theorem checkForWallCollision_r (b : Bounds α) (c : Circle α) :
    (Circle.checkForWallCollision b c).info.r = c.info.r := rfl

theorem checkForWallCollision_strength (b : Bounds α) (c : Circle α) :
    (Circle.checkForWallCollision b c).strength = c.strength := rfl

theorem checkForWallCollision_collided (b : Bounds α) (c : Circle α) :
    (Circle.checkForWallCollision b c).collided = c.collided := rfl

theorem checkForWallCollision_html_id (b : Bounds α) (c : Circle α) :
    (Circle.checkForWallCollision b c).html_id = c.html_id := rfl

theorem update_html_id (t : α) (c : Circle α) :
    (Circle.update t c).html_id = c.html_id := by
  unfold Circle.update
  by_cases h1 : c.collided <;> by_cases h2 : 0 < c.strength <;> simp [h1, h2]

theorem update_velocity (t : α) (c : Circle α) :
    (Circle.update t c).info.velocity = c.info.velocity := by
  unfold Circle.update
  by_cases h1 : c.collided <;> by_cases h2 : 0 < c.strength <;> simp [h1, h2]

theorem update_cx (t : α) (c : Circle α) :
    (Circle.update t c).info.cx = c.info.cx + c.info.velocity.x * t := by
  unfold Circle.update
  by_cases h1 : c.collided <;> by_cases h2 : 0 < c.strength <;> simp [h1, h2]

theorem update_cy (t : α) (c : Circle α) :
    (Circle.update t c).info.cy = c.info.cy + c.info.velocity.y * t := by
  unfold Circle.update
  by_cases h1 : c.collided <;> by_cases h2 : 0 < c.strength <;> simp [h1, h2]

theorem update_strength (t : α) (c : Circle α) :
    (Circle.update t c).strength =
      if c.collided = true ∧ 0 < c.strength then c.strength - 1 else c.strength := by
  unfold Circle.update
  by_cases h1 : c.collided <;> by_cases h2 : 0 < c.strength <;> simp [h1, h2]

theorem update_collided (t : α) (c : Circle α) :
    (Circle.update t c).collided =
      if c.collided = true ∧ 0 < c.strength then false else c.collided := by
  unfold Circle.update
  by_cases h1 : c.collided <;> by_cases h2 : 0 < c.strength <;> simp [h1, h2]

theorem update_r (t : α) (c : Circle α) :
    (Circle.update t c).info.r =
      if c.collided = true ∧ ¬0 < c.strength then max (c.info.r - 1) 0
      else c.info.r := by
  unfold Circle.update
  by_cases h1 : c.collided <;> by_cases h2 : 0 < c.strength <;> simp [h1, h2]

theorem tickBody_eq_some_iff {b : Bounds α} {fl : Bool} {c c' : Circle α} :
    tickBody b fl c = some c' ↔
      ¬((c.collided || fl) = true ∧ c.info.r ≤ 0) ∧
        c' = Circle.update 1
          (Circle.checkForWallCollision b { c with collided := c.collided || fl }) := by
  unfold tickBody
  by_cases h : ((c.collided || fl) && decide (c.info.r ≤ 0)) = true
  · rw [if_pos h]
    simp only [Bool.and_eq_true, decide_eq_true_eq] at h
    exact iff_of_false (fun hc => by cases hc) fun hc => hc.1 h
  · rw [if_neg h]
    simp only [Bool.and_eq_true, decide_eq_true_eq] at h
    constructor
    · intro he
      exact ⟨h, (Option.some.injEq _ _ ▸ he).symm⟩
    · rintro ⟨-, rfl⟩
      rfl

theorem tickBody_eq_none_iff {b : Bounds α} {fl : Bool} {c : Circle α} :
    tickBody b fl c = none ↔ (c.collided || fl) = true ∧ c.info.r ≤ 0 := by
  unfold tickBody
  by_cases h : ((c.collided || fl) && decide (c.info.r ≤ 0)) = true
  · rw [if_pos h]
    simp only [Bool.and_eq_true, decide_eq_true_eq] at h
    exact iff_of_true rfl h
  · rw [if_neg h]
    simp only [Bool.and_eq_true, decide_eq_true_eq] at h
    exact iff_of_false (fun hc => by cases hc) h

theorem tickBody_html_id {b : Bounds α} {fl : Bool} {c c' : Circle α}
    (h : tickBody b fl c = some c') : c'.html_id = c.html_id := by
  rcases tickBody_eq_some_iff.mp h with ⟨-, rfl⟩
  rw [update_html_id, checkForWallCollision_html_id]

/-- Membership in the post-tick list, decomposed body by body. -/
theorem mem_loop_iff {b : Bounds α} {cs : List (Circle α)} {c' : Circle α} :
    c' ∈ PlayGround.loop b cs ↔
      ∃ i c, cs.get? i = some c ∧ tickBody b (hitAnyB cs i) c = some c' := by
  rw [loop_eq, List.mem_filterMap]
  constructor
  · rintro ⟨i, hi, hbind⟩
    cases hc : cs.get? i with
    | none => rw [hc] at hbind; cases hbind
    | some c =>
        rw [hc] at hbind
        exact ⟨i, c, hc, hbind⟩
  · rintro ⟨i, c, hc, htb⟩
    refine ⟨i, List.mem_range.mpr (List.get?_eq_some.mp hc).1, ?_⟩
    rw [hc]
    exact htb

theorem withFlags_map_html_id (cs : List (Circle α)) (f : ℕ → Bool) :
    (withFlags cs f).map (fun c => c.html_id) = cs.map fun c => c.html_id := by
  induction cs generalizing f with
  | nil => rfl
  | cons c cs ih => simp [withFlags, ih]

/-- The ids surviving a tick form a subsequence of the ids before it. -/
theorem loop_ids_sublist (b : Bounds α) (cs : List (Circle α)) :
    ((PlayGround.loop b cs).map fun c => c.html_id).Sublist
      (cs.map fun c => c.html_id) := by
  unfold PlayGround.loop PlayGround.checkForCollisions PlayGround.updatePositions
    PlayGround.checkForWallCollisions
  rw [checkForBallCollisions_eq, List.map_map, List.map_map]
  have hfun :
      (((fun c : Circle α => c.html_id) ∘ Circle.update 1) ∘ Circle.checkForWallCollision b) =
        fun c : Circle α => c.html_id := by
    funext c
    show (Circle.update 1 (Circle.checkForWallCollision b c)).html_id = c.html_id
    rw [update_html_id, checkForWallCollision_html_id]
  rw [hfun]
  have h1 := List.filter_sublist (p := fun c : Circle α => !(c.collided && decide (c.info.r ≤ 0)))
    (withFlags cs fun k => hitAnyB cs k)
  have h2 := h1.map fun c : Circle α => c.html_id
  rw [withFlags_map_html_id] at h2
  exact h2

theorem uniqueIds_loop {b : Bounds α} {cs : List (Circle α)} (h : UniqueIds cs) :
    UniqueIds (PlayGround.loop b cs) := by
  unfold UniqueIds at h ⊢
  rw [← List.pairwise_map (f := fun c : Circle α => c.html_id) (R := Ne)] at h ⊢
  exact List.Pairwise.sublist (loop_ids_sublist b cs) h

theorem uniqueIds_ticks {b : Bounds α} {cs : List (Circle α)} (h : UniqueIds cs)
    (n : ℕ) : UniqueIds (PlayGround.ticks b cs n) := by
  induction n with
  | zero => exact h
  | succ n ih => exact uniqueIds_loop ih

theorem eq_of_mem_unique {cs : List (Circle α)} (hu : UniqueIds cs)
    {c1 c2 : Circle α} (h1 : c1 ∈ cs) (h2 : c2 ∈ cs)
    (hid : c1.html_id = c2.html_id) : c1 = c2 := by
  induction cs with
  | nil => cases h1
  | cons a l ih =>
      rcases List.pairwise_cons.mp hu with ⟨ha, hl⟩
      rcases List.mem_cons.mp h1 with h1 | h1 <;> rcases List.mem_cons.mp h2 with h2 | h2
      · rw [h1, h2]
      · exact absurd hid (h1 ▸ ha c2 h2)
      · exact absurd hid.symm (h2 ▸ ha c1 h1)
      · exact ih hl h1 h2

theorem ids_ne_of_get? {cs : List (Circle α)} (hu : UniqueIds cs) {i j : ℕ}
    {c1 c2 : Circle α} (hi : cs.get? i = some c1) (hj : cs.get? j = some c2)
    (hij : i ≠ j) : c1.html_id ≠ c2.html_id := by
  have hp := List.pairwise_iff_getElem.mp hu
  have hli := (List.get?_eq_some.mp hi).1
  have hlj := (List.get?_eq_some.mp hj).1
  have e1 : cs[i] = c1 := by
    have h2 : cs[i]? = some c1 := by rw [← List.get?_eq_getElem?]; exact hi
    rw [List.getElem?_eq_getElem hli] at h2
    exact (Option.some.injEq _ _).mp h2
  have e2 : cs[j] = c2 := by
    have h2 : cs[j]? = some c2 := by rw [← List.get?_eq_getElem?]; exact hj
    rw [List.getElem?_eq_getElem hlj] at h2
    exact (Option.some.injEq _ _).mp h2
  rcases hij.lt_or_lt with hlt | hlt
  · have hp2 := hp i j hli hlj hlt
    rw [e1, e2] at hp2
    exact hp2
  · have hp2 := hp j i hlj hli hlt
    rw [e1, e2] at hp2
    exact fun he => hp2 he.symm

/-- With distinct ids, the positional overlap test used by the fold agrees
with the claim-level overlap test `hitById`. -/
theorem hitAnyB_iff_hitById {cs : List (Circle α)} (hu : UniqueIds cs) {i : ℕ}
    {c : Circle α} (hi : cs.get? i = some c) :
    hitAnyB cs i = true ↔ hitById cs c := by
  unfold hitAnyB hitById
  rw [List.any_eq_true]
  constructor
  · rintro ⟨j, hjmem, hhit⟩
    cases hcj : cs.get? j with
    | none => rw [hitB_none_right hcj] at hhit; cases hhit
    | some c2 =>
        rw [hitB_eq hi hcj, Bool.and_eq_true, decide_eq_true_eq, decide_eq_true_eq] at hhit
        exact ⟨c2, List.get?_mem hcj, ids_ne_of_get? hu hcj hi (Ne.symm hhit.1), hhit.2⟩
  · rintro ⟨c2, hmem, hne, hbc⟩
    obtain ⟨j, hj⟩ := List.mem_iff_get?.mp hmem
    have hij : i ≠ j := by
      intro he
      rw [← he, hi] at hj
      exact hne (by rw [← Option.some.injEq _ _ |>.mp hj])
    refine ⟨j, List.mem_range.mpr (List.get?_eq_some.mp hj).1, ?_⟩
    rw [hitB_eq hi hj, Bool.and_eq_true, decide_eq_true_eq, decide_eq_true_eq]
    exact ⟨hij, hbc⟩

/-- Invariant maintained by every reachable body when all initial radii are
nonnegative: the radius stays nonnegative, and a body whose radius has hit `0`
must already be out of strength (the radius only shrinks in the
zero-strength decay branch of `update`). -/
def GoodBody (c : Circle α) : Prop :=
  0 ≤ c.info.r ∧ (c.info.r ≤ 0 → c.strength = 0)

theorem tickBody_good {b : Bounds α} {fl : Bool} {c c' : Circle α}
    (hg : GoodBody c) (h : tickBody b fl c = some c') :
    GoodBody c' ∧ c'.info.r ≤ c.info.r := by
  rcases tickBody_eq_some_iff.mp h with ⟨hs, rfl⟩
  rcases hg with ⟨hr0, hP⟩
  rw [GoodBody, update_r, update_strength, checkForWallCollision_r,
    checkForWallCollision_strength, checkForWallCollision_collided]
  dsimp only
  by_cases hfl : (c.collided || fl) = true
  · have hrpos : 0 < c.info.r := lt_of_not_ge fun hle => hs ⟨hfl, hle⟩
    by_cases hstr : 0 < c.strength
    · rw [if_neg (by rintro ⟨-, h2⟩; exact h2 hstr), if_pos ⟨hfl, hstr⟩]
      exact ⟨⟨hr0, fun hle => absurd hrpos (not_lt.mpr hle)⟩, le_refl _⟩
    · rw [if_pos ⟨hfl, hstr⟩, if_neg (by rintro ⟨-, h2⟩; exact hstr h2)]
      refine ⟨⟨le_max_right _ _, fun _ => Nat.eq_zero_of_not_pos hstr⟩, ?_⟩
      exact max_le (by linarith) hr0
  · rw [if_neg (by rintro ⟨h1, -⟩; exact hfl h1), if_neg (by rintro ⟨h1, -⟩; exact hfl h1)]
    exact ⟨⟨hr0, hP⟩, le_refl _⟩

theorem good_ticks {b : Bounds α} {cs : List (Circle α)}
    (h : ∀ c ∈ cs, GoodBody c) (n : ℕ) :
    ∀ c ∈ PlayGround.ticks b cs n, GoodBody c := by
  induction n with
  | zero => exact h
  | succ n ih =>
      intro c hc
      rcases mem_loop_iff.mp hc with ⟨i, c0, hget, htb⟩
      exact (tickBody_good (ih c0 (List.get?_mem hget)) htb).1

/-- Along the trace of one id, either the radius strictly decreased during
some earlier tick, or it still equals its initial value. -/
theorem radius_chain {b : Bounds α} {cs : List (Circle α)}
    (hg : ∀ c ∈ cs, GoodBody c) :
    ∀ (n : ℕ) (c : Circle α), c ∈ PlayGround.ticks b cs n →
      (∃ k, k < n ∧ ∃ ck ck1 : Circle α,
          ck ∈ PlayGround.ticks b cs k ∧ ck.html_id = c.html_id ∧
          ck1 ∈ PlayGround.ticks b cs (k + 1) ∧ ck1.html_id = c.html_id ∧
          ck1.info.r < ck.info.r) ∨
      (∃ c0 ∈ cs, c0.html_id = c.html_id ∧ c.info.r = c0.info.r) := by
  intro n
  induction n with
  | zero => exact fun c hc => Or.inr ⟨c, hc, rfl, rfl⟩
  | succ n ih =>
      intro c hc
      rcases mem_loop_iff.mp hc with ⟨i, c0, hget, htb⟩
      have hc0mem : c0 ∈ PlayGround.ticks b cs n := List.get?_mem hget
      have hid : c.html_id = c0.html_id := tickBody_html_id htb
      rcases lt_or_eq_of_le (tickBody_good (good_ticks hg n c0 hc0mem) htb).2 with hlt | heq
      · exact Or.inl ⟨n, n.lt_succ_self, c0, c, hc0mem, hid.symm, hc, rfl, hlt⟩
      · rcases ih c0 hc0mem with ⟨k, hk, ck, ck1, h1, h2, h3, h4, h5⟩ | ⟨cinit, hmem, hid0, hr0⟩
        · exact Or.inl ⟨k, hk.trans n.lt_succ_self, ck, ck1, h1, h2.trans hid.symm, h3,
            h4.trans hid.symm, h5⟩
        · exact Or.inr ⟨cinit, hmem, hid0.trans hid.symm, heq.trans hr0⟩

/-- C1: after the ball-collision pass, the flag of the body at position `i` is
set iff it was set before the pass or some distinct live body overlaps it
strictly (`distance < r_i + r_j`); in particular both members of an
overlapping pair get flagged in the same pass, a tie in the distance
comparison is not a collision, and no body is compared against itself. -/
theorem collision_pass_flag_iff (cs : List (Circle α)) (i : ℕ) (c c' : Circle α)
    (hc : cs.get? i = some c)
    (hc' : (PlayGround.checkForBallCollisions cs).get? i = some c') :
    c'.collided = true ↔
      c.collided = true ∨
        ∃ j c2, j ≠ i ∧ cs.get? j = some c2 ∧ ballsCollide c c2 := by
  rw [checkForBallCollisions_eq, withFlags_get?_some hc] at hc'
  have hc2 := (Option.some.injEq _ _).mp hc'
  rw [← hc2]
  dsimp only
  rw [Bool.or_eq_true]
  apply or_congr Iff.rfl
  unfold hitAnyB
  rw [List.any_eq_true]
  constructor
  · rintro ⟨j, hjmem, hhit⟩
    cases hcj : cs.get? j with
    | none => rw [hitB_none_right hcj] at hhit; cases hhit
    | some c2 =>
        rw [hitB_eq hc hcj, Bool.and_eq_true, decide_eq_true_eq, decide_eq_true_eq] at hhit
        exact ⟨j, c2, Ne.symm hhit.1, hcj, hhit.2⟩
  · rintro ⟨j, c2, hji, hcj, hbc⟩
    refine ⟨j, List.mem_range.mpr (List.get?_eq_some.mp hcj).1, ?_⟩
    rw [hitB_eq hc hcj, Bool.and_eq_true, decide_eq_true_eq, decide_eq_true_eq]
    exact ⟨Ne.symm hji, hbc⟩

/-- Demo circles for the C1 witness: two overlapping bodies three units
apart with radii five. -/
def c1demoA : Circle ℤ := ⟨⟨20, 20, 5, ⟨0, 0⟩⟩, 1, false, 0⟩

def c1demoB : Circle ℤ := ⟨⟨23, 20, 5, ⟨0, 0⟩⟩, 1, false, 1⟩

theorem collision_pass_flag_iff_witness :
    ([c1demoA, c1demoB].get? 0 = some c1demoA) ∧
    ((PlayGround.checkForBallCollisions [c1demoA, c1demoB]).get? 0 =
        some { c1demoA with collided := true }) ∧
    (({ c1demoA with collided := true } : Circle ℤ).collided = true ↔
      c1demoA.collided = true ∨
        ∃ j c2, j ≠ 0 ∧ [c1demoA, c1demoB].get? j = some c2 ∧
          ballsCollide c1demoA c2) :=
  ⟨rfl, by decide, collision_pass_flag_iff [c1demoA, c1demoB] 0 c1demoA _ rfl (by decide)⟩

/-- C5: the tick pipeline runs detection, then reaping, then wall resolution,
then integration, in this order; the detection pass changes no geometry and no
strength, the reap phase only removes bodies, the wall phase changes only
velocities, and the strength-decay transition is applied inside `update`. -/
theorem tick_phase_order (b : Bounds α) (cs : List (Circle α)) :
    PlayGround.loop b cs =
        PlayGround.updatePositions
          (PlayGround.checkForWallCollisions b
            (PlayGround.handleDeletions (PlayGround.checkForBallCollisions cs))) ∧
      (∀ i, ((PlayGround.checkForBallCollisions cs).get? i).map
            (fun c => (c.info, c.strength)) =
          (cs.get? i).map fun c => (c.info, c.strength)) ∧
      (PlayGround.handleDeletions cs).Sublist cs ∧
      (∀ i, ((PlayGround.checkForWallCollisions b cs).get? i).map
            (fun c => (c.info.cx, c.info.cy, c.info.r, c.strength, c.collided, c.html_id)) =
          (cs.get? i).map fun c =>
            (c.info.cx, c.info.cy, c.info.r, c.strength, c.collided, c.html_id)) ∧
      (∀ c : Circle α, c.collided = true → 0 < c.strength →
        (Circle.update 1 c).strength = c.strength - 1 ∧
          (Circle.update 1 c).collided = false) := by
  refine ⟨rfl, ?_, List.filter_sublist cs, ?_, ?_⟩
  · intro i
    rw [checkForBallCollisions_eq, withFlags_get?]
    cases hi : cs.get? i <;> rfl
  · intro i
    unfold PlayGround.checkForWallCollisions
    rw [List.get?_map]
    cases hi : cs.get? i <;> rfl
  · intro c h1 h2
    rw [update_strength, update_collided, if_pos ⟨h1, h2⟩, if_pos ⟨h1, h2⟩]
    exact ⟨rfl, rfl⟩

theorem tick_phase_order_witness :
    (PlayGround.loop (⟨100, 100⟩ : Bounds ℤ) [⟨⟨1, 2, 3, ⟨4, 5⟩⟩, 2, true, 7⟩] =
        PlayGround.updatePositions
          (PlayGround.checkForWallCollisions (⟨100, 100⟩ : Bounds ℤ)
            (PlayGround.handleDeletions
              (PlayGround.checkForBallCollisions [⟨⟨1, 2, 3, ⟨4, 5⟩⟩, 2, true, 7⟩])))) ∧
    ((⟨⟨1, 2, 3, ⟨4, 5⟩⟩, 2, true, 7⟩ : Circle ℤ).collided = true) ∧
    (0 < (⟨⟨1, 2, 3, ⟨4, 5⟩⟩, 2, true, 7⟩ : Circle ℤ).strength) ∧
    ((Circle.update 1 (⟨⟨1, 2, 3, ⟨4, 5⟩⟩, 2, true, 7⟩ : Circle ℤ)).strength = 2 - 1 ∧
      (Circle.update 1 (⟨⟨1, 2, 3, ⟨4, 5⟩⟩, 2, true, 7⟩ : Circle ℤ)).collided = false) :=
  ⟨(tick_phase_order (⟨100, 100⟩ : Bounds ℤ) [⟨⟨1, 2, 3, ⟨4, 5⟩⟩, 2, true, 7⟩]).1, rfl,
    by decide,
    (tick_phase_order (⟨100, 100⟩ : Bounds ℤ) [⟨⟨1, 2, 3, ⟨4, 5⟩⟩, 2, true, 7⟩]).2.2.2.2
      _ rfl (by decide)⟩

/-- C4 (amended): between ticks every live body has radius `≥ 0` (not `> 0`:
a freshly decayed body sits at radius `0` in the live set) and strength
`≥ 0`. -/
theorem live_radius_nonneg (b : Bounds α) (cs : List (Circle α))
    (h : ∀ c ∈ cs, 0 ≤ c.info.r) (n : ℕ) :
    ∀ c ∈ PlayGround.ticks b cs n, 0 ≤ c.info.r ∧ 0 ≤ c.strength := by
  induction n with
  | zero => exact fun c hc => ⟨h c hc, Nat.zero_le _⟩
  | succ n ih =>
      intro c hc
      rcases mem_loop_iff.mp hc with ⟨i, c0, hget, htb⟩
      have h0 := ih c0 (List.get?_mem hget)
      rcases tickBody_eq_some_iff.mp htb with ⟨-, rfl⟩
      refine ⟨?_, Nat.zero_le _⟩
      rw [update_r]
      split
      · exact le_max_right _ _
      · exact h0.1

/-- Demo circles for C4: a strength-0 body overlapping a healthy one; after
one tick the first body is live at radius `0`, refuting radius `> 0`. -/
def c4demoA : Circle ℤ := ⟨⟨20, 20, 1, ⟨0, 0⟩⟩, 0, false, 0⟩

def c4demoB : Circle ℤ := ⟨⟨21, 20, 5, ⟨0, 0⟩⟩, 5, false, 1⟩

theorem live_radius_pos_cex :
    ∃ c' ∈ PlayGround.loop (⟨100, 100⟩ : Bounds ℤ) [c4demoA, c4demoB],
      ¬0 < c'.info.r := by decide

theorem live_radius_nonneg_witness :
    (∀ c ∈ [c4demoA, c4demoB], 0 ≤ c.info.r) ∧
    (∀ c ∈ PlayGround.ticks (⟨100, 100⟩ : Bounds ℤ) [c4demoA, c4demoB] 2,
      0 ≤ c.info.r ∧ 0 ≤ c.strength) :=
  ⟨by decide, live_radius_nonneg (⟨100, 100⟩ : Bounds ℤ) [c4demoA, c4demoB] (by decide) 2⟩

/-- C7: a body sticking out past the right wall before wall resolution has a
nonpositive horizontal velocity immediately after its `checkForWallCollision`
step. -/
theorem right_wall_velocity_nonpos (b : Bounds α) (c : Circle α)
    (h : c.info.cx + c.info.r > b.clientWidth) :
    (Circle.checkForWallCollision b c).info.velocity.x ≤ 0 := by
  show (if c.info.cx + c.info.r > b.clientWidth then -|c.info.velocity.x|
      else if c.info.cx - c.info.r < 0 then |c.info.velocity.x|
      else c.info.velocity.x) ≤ 0
  rw [if_pos h]
  exact neg_nonpos.mpr (abs_nonneg _)

theorem right_wall_velocity_nonpos_witness :
    ((⟨⟨99, 50, 5, ⟨2, 0⟩⟩, 1, false, 0⟩ : Circle ℤ).info.cx +
        (⟨⟨99, 50, 5, ⟨2, 0⟩⟩, 1, false, 0⟩ : Circle ℤ).info.r >
      (⟨100, 100⟩ : Bounds ℤ).clientWidth) ∧
    (Circle.checkForWallCollision (⟨100, 100⟩ : Bounds ℤ)
        ⟨⟨99, 50, 5, ⟨2, 0⟩⟩, 1, false, 0⟩).info.velocity.x ≤ 0 :=
  ⟨by decide,
    right_wall_velocity_nonpos (⟨100, 100⟩ : Bounds ℤ)
      ⟨⟨99, 50, 5, ⟨2, 0⟩⟩, 1, false, 0⟩ (by decide)⟩

/-- C8 (amended): the two axes are handled independently (so a body can be
corrected on both axes in one call), but within an axis the two half-plane
checks form an `if / else if` chain: the right (resp. bottom) check wins, and
the left (resp. top) correction is applied only when the right (resp. bottom)
condition does not hold. -/
theorem wall_axes (b : Bounds α) (c : Circle α) :
    ((c.info.cx + c.info.r > b.clientWidth →
        (Circle.checkForWallCollision b c).info.velocity.x = -|c.info.velocity.x|) ∧
      (¬c.info.cx + c.info.r > b.clientWidth → c.info.cx - c.info.r < 0 →
        (Circle.checkForWallCollision b c).info.velocity.x = |c.info.velocity.x|) ∧
      (¬c.info.cx + c.info.r > b.clientWidth → ¬c.info.cx - c.info.r < 0 →
        (Circle.checkForWallCollision b c).info.velocity.x = c.info.velocity.x)) ∧
    ((c.info.cy + c.info.r > b.clientHeight →
        (Circle.checkForWallCollision b c).info.velocity.y = -|c.info.velocity.y|) ∧
      (¬c.info.cy + c.info.r > b.clientHeight → c.info.cy - c.info.r < 0 →
        (Circle.checkForWallCollision b c).info.velocity.y = |c.info.velocity.y|) ∧
      (¬c.info.cy + c.info.r > b.clientHeight → ¬c.info.cy - c.info.r < 0 →
        (Circle.checkForWallCollision b c).info.velocity.y = c.info.velocity.y)) := by
  refine ⟨⟨?_, ?_, ?_⟩, ?_, ?_, ?_⟩
  · intro h1
    show (if c.info.cx + c.info.r > b.clientWidth then -|c.info.velocity.x|
        else if c.info.cx - c.info.r < 0 then |c.info.velocity.x|
        else c.info.velocity.x) = -|c.info.velocity.x|
    rw [if_pos h1]
  · intro h1 h2
    show (if c.info.cx + c.info.r > b.clientWidth then -|c.info.velocity.x|
        else if c.info.cx - c.info.r < 0 then |c.info.velocity.x|
        else c.info.velocity.x) = |c.info.velocity.x|
    rw [if_neg h1, if_pos h2]
  · intro h1 h2
    show (if c.info.cx + c.info.r > b.clientWidth then -|c.info.velocity.x|
        else if c.info.cx - c.info.r < 0 then |c.info.velocity.x|
        else c.info.velocity.x) = c.info.velocity.x
    rw [if_neg h1, if_neg h2]
  · intro h1
    show (if c.info.cy + c.info.r > b.clientHeight then -|c.info.velocity.y|
        else if c.info.cy - c.info.r < 0 then |c.info.velocity.y|
        else c.info.velocity.y) = -|c.info.velocity.y|
    rw [if_pos h1]
  · intro h1 h2
    show (if c.info.cy + c.info.r > b.clientHeight then -|c.info.velocity.y|
        else if c.info.cy - c.info.r < 0 then |c.info.velocity.y|
        else c.info.velocity.y) = |c.info.velocity.y|
    rw [if_neg h1, if_pos h2]
  · intro h1 h2
    show (if c.info.cy + c.info.r > b.clientHeight then -|c.info.velocity.y|
        else if c.info.cy - c.info.r < 0 then |c.info.velocity.y|
        else c.info.velocity.y) = c.info.velocity.y
    rw [if_neg h1, if_neg h2]

/-- Demo circle for C8: wider than the whole arena, violating the right and
the left half-plane conditions at once; only the right-wall correction runs. -/
def c8demo : Circle ℤ := ⟨⟨0, 5, 100, ⟨5, 0⟩⟩, 1, false, 0⟩

theorem wall_axes_cex :
    (c8demo.info.cx - c8demo.info.r < 0) ∧
    (Circle.checkForWallCollision (⟨10, 10⟩ : Bounds ℤ) c8demo).info.velocity.x = -5 ∧
    ¬(Circle.checkForWallCollision (⟨10, 10⟩ : Bounds ℤ) c8demo).info.velocity.x =
        |c8demo.info.velocity.x| := by
  decide

/-- Demo circle for the C8 witness: out past the right and the bottom walls at
once, corrected on both axes in the same call. -/
def c8demo2 : Circle ℤ := ⟨⟨99, 99, 5, ⟨2, 3⟩⟩, 1, false, 0⟩

theorem wall_axes_witness :
    (c8demo2.info.cx + c8demo2.info.r > (⟨100, 100⟩ : Bounds ℤ).clientWidth) ∧
    (c8demo2.info.cy + c8demo2.info.r > (⟨100, 100⟩ : Bounds ℤ).clientHeight) ∧
    (Circle.checkForWallCollision (⟨100, 100⟩ : Bounds ℤ) c8demo2).info.velocity.x =
        -|c8demo2.info.velocity.x| ∧
    (Circle.checkForWallCollision (⟨100, 100⟩ : Bounds ℤ) c8demo2).info.velocity.y =
        -|c8demo2.info.velocity.y| :=
  ⟨by decide, by decide,
    (wall_axes (⟨100, 100⟩ : Bounds ℤ) c8demo2).1.1 (by decide),
    (wall_axes (⟨100, 100⟩ : Bounds ℤ) c8demo2).2.1 (by decide)⟩

/-- C10: wall resolution is idempotent: the corrections write `-abs` or `abs`
of the velocity component without moving the body, so a second call takes the
same branches and rewrites the same values. -/
theorem wall_resolution_idempotent (b : Bounds α) (c : Circle α) :
    Circle.checkForWallCollision b (Circle.checkForWallCollision b c) =
      Circle.checkForWallCollision b c := by
  unfold Circle.checkForWallCollision
  by_cases h1 : c.info.cx + c.info.r > b.clientWidth <;>
    by_cases h2 : c.info.cx - c.info.r < 0 <;>
    by_cases h3 : c.info.cy + c.info.r > b.clientHeight <;>
    by_cases h4 : c.info.cy - c.info.r < 0 <;>
    simp [h1, h2, h3, h4, abs_abs, abs_neg, neg_neg]

/-- C3: across one tick, a surviving body's strength never increases; it
drops by exactly one precisely when the collided flag is set at the time its
`update` step runs (set on entry or by this tick's detection pass) and the
strength is positive — and then the flag is cleared; otherwise the strength is
unchanged, no matter how many simultaneous overlaps flagged the body. -/
theorem strength_decay_tick (b : Bounds α) (cs : List (Circle α)) (hu : UniqueIds cs)
    (c c' : Circle α) (hc : c ∈ cs) (hc' : c' ∈ PlayGround.loop b cs)
    (hid : c'.html_id = c.html_id) :
    c'.strength ≤ c.strength ∧
      ((c.collided = true ∨ hitById cs c) ∧ 0 < c.strength →
        c'.strength = c.strength - 1 ∧ c'.collided = false) ∧
      (¬((c.collided = true ∨ hitById cs c) ∧ 0 < c.strength) →
        c'.strength = c.strength) := by
  rcases mem_loop_iff.mp hc' with ⟨i, c0, hget, htb⟩
  have hidc : c'.html_id = c0.html_id := tickBody_html_id htb
  have hceq : c0 = c :=
    eq_of_mem_unique hu (List.get?_mem hget) hc (by rw [← hidc, hid])
  rw [hceq] at hget htb
  have hflag : hitAnyB cs i = true ↔ hitById cs c := hitAnyB_iff_hitById hu hget
  rcases tickBody_eq_some_iff.mp htb with ⟨-, rfl⟩
  rw [update_strength, update_collided, checkForWallCollision_strength,
    checkForWallCollision_collided]
  dsimp only
  by_cases hcond : (c.collided || hitAnyB cs i) = true ∧ 0 < c.strength
  · rw [if_pos hcond, if_pos hcond]
    have hcondP : (c.collided = true ∨ hitById cs c) ∧ 0 < c.strength := by
      rcases (Bool.or_eq_true _ _).mp hcond.1 with h | h
      exacts [⟨Or.inl h, hcond.2⟩, ⟨Or.inr (hflag.mp h), hcond.2⟩]
    exact ⟨Nat.sub_le _ _, fun _ => ⟨rfl, rfl⟩, fun hn => absurd hcondP hn⟩
  · rw [if_neg hcond, if_neg hcond]
    have hcondP : ¬((c.collided = true ∨ hitById cs c) ∧ 0 < c.strength) := by
      rintro ⟨ho, hpos⟩
      apply hcond
      refine ⟨?_, hpos⟩
      rw [Bool.or_eq_true]
      rcases ho with h | h
      · exact Or.inl h
      · exact Or.inr (hflag.mpr h)
    exact ⟨le_refl _, fun hcp => absurd hcp hcondP, fun _ => rfl⟩

/-- Demo circles for the C3 witness: two overlapping bodies, the first with
strength two; one tick decrements it to one and clears its flag. -/
def c3demoA : Circle ℤ := ⟨⟨20, 20, 5, ⟨0, 0⟩⟩, 2, false, 0⟩

def c3demoB : Circle ℤ := ⟨⟨23, 20, 5, ⟨0, 0⟩⟩, 1, false, 1⟩

theorem strength_decay_tick_witness :
    UniqueIds [c3demoA, c3demoB] ∧
    c3demoA ∈ [c3demoA, c3demoB] ∧
    (⟨⟨20, 20, 5, ⟨0, 0⟩⟩, 1, false, 0⟩ : Circle ℤ) ∈
        PlayGround.loop (⟨100, 100⟩ : Bounds ℤ) [c3demoA, c3demoB] ∧
    ((⟨⟨20, 20, 5, ⟨0, 0⟩⟩, 1, false, 0⟩ : Circle ℤ).html_id = c3demoA.html_id) ∧
    ((⟨⟨20, 20, 5, ⟨0, 0⟩⟩, 1, false, 0⟩ : Circle ℤ).strength ≤ c3demoA.strength ∧
      ((c3demoA.collided = true ∨ hitById [c3demoA, c3demoB] c3demoA) ∧
          0 < c3demoA.strength →
        (⟨⟨20, 20, 5, ⟨0, 0⟩⟩, 1, false, 0⟩ : Circle ℤ).strength =
            c3demoA.strength - 1 ∧
          (⟨⟨20, 20, 5, ⟨0, 0⟩⟩, 1, false, 0⟩ : Circle ℤ).collided = false) ∧
      (¬((c3demoA.collided = true ∨ hitById [c3demoA, c3demoB] c3demoA) ∧
          0 < c3demoA.strength) →
        (⟨⟨20, 20, 5, ⟨0, 0⟩⟩, 1, false, 0⟩ : Circle ℤ).strength = c3demoA.strength)) :=
  ⟨by decide, by decide, by decide, rfl,
    strength_decay_tick (⟨100, 100⟩ : Bounds ℤ) [c3demoA, c3demoB] (by decide)
      c3demoA _ (by decide) (by decide) rfl⟩

/-- C2 (amended): the reap phase removes a body iff its collided flag is set
and its radius is `≤ 0`; consequently a body at radius `0` whose flag is clear
and which overlaps nobody is not removed and stays in the live set for as
long as no collision occurs.  (A body that decayed to radius `0` keeps its
flag set, so it is reaped on the next tick even without a fresh overlap; the
flag-clear proviso is therefore necessary.) -/
theorem reap_iff_and_persistence :
    (∀ (cs : List (Circle α)) (c : Circle α),
        c ∈ PlayGround.handleDeletions cs ↔
          c ∈ cs ∧ ¬(c.collided = true ∧ c.info.r ≤ 0)) ∧
    (∀ (b : Bounds α) (cs : List (Circle α)), UniqueIds cs →
      ∀ c ∈ cs, c.collided = false → c.info.r = 0 →
        ∀ n : ℕ,
          (∀ k, k < n → ∀ ck ∈ PlayGround.ticks b cs k,
            ck.html_id = c.html_id → ¬hitById (PlayGround.ticks b cs k) ck) →
          ∃ ck ∈ PlayGround.ticks b cs n,
            ck.html_id = c.html_id ∧ ck.collided = false ∧ ck.info.r = 0) := by
  constructor
  · intro cs c
    unfold PlayGround.handleDeletions
    rw [List.mem_filter]
    apply and_congr_right
    intro _hm
    simp only [Bool.not_eq_true', Bool.and_eq_false_iff, Bool.not_eq_true,
      decide_eq_false_iff_not, not_le, not_and]
    constructor
    · rintro (h | h) hcol
      · rw [hcol] at h; cases h
      · exact h
    · intro h
      cases hcol : c.collided
      · exact Or.inl rfl
      · exact Or.inr (h hcol)
  · intro b cs hu c hc hcol hr n
    induction n with
    | zero => exact fun _ => ⟨c, hc, rfl, hcol, hr⟩
    | succ n ih =>
        intro hnohit
        obtain ⟨ck, hckmem, hckid, hckcol, hckr⟩ :=
          ih fun k hk => hnohit k (Nat.lt_succ_of_lt hk)
        obtain ⟨i, hget⟩ := List.mem_iff_get?.mp hckmem
        have huk : UniqueIds (PlayGround.ticks b cs n) := uniqueIds_ticks hu n
        have hhit : hitAnyB (PlayGround.ticks b cs n) i = false := by
          cases hb : hitAnyB (PlayGround.ticks b cs n) i with
          | false => rfl
          | true =>
              exact absurd ((hitAnyB_iff_hitById huk hget).mp hb)
                (hnohit n n.lt_succ_self ck hckmem hckid)
        have hflag2 : (ck.collided || hitAnyB (PlayGround.ticks b cs n) i) = false := by
          rw [hckcol, hhit]
          rfl
        have htb : tickBody b (hitAnyB (PlayGround.ticks b cs n) i) ck =
            some (Circle.update 1 (Circle.checkForWallCollision b
              { ck with collided := ck.collided || hitAnyB (PlayGround.ticks b cs n) i })) :=
          tickBody_eq_some_iff.mpr
            ⟨(by intro hcon; rw [hflag2] at hcon; simp at hcon), rfl⟩
        refine ⟨_, mem_loop_iff.mpr ⟨i, ck, hget, htb⟩, ?_, ?_, ?_⟩
        · rw [update_html_id, checkForWallCollision_html_id]
          exact hckid
        · rw [update_collided, checkForWallCollision_collided,
            checkForWallCollision_strength]
          dsimp only
          rw [hflag2, if_neg fun hcon => by cases hcon.1]
        · rw [update_r, checkForWallCollision_r, checkForWallCollision_collided,
            checkForWallCollision_strength]
          dsimp only
          rw [hflag2, if_neg fun hcon => by cases hcon.1]
          exact hckr

/-- Demo circle refuting the original C2 consequence: a body that decayed to
radius `0` keeps `collided = true` (the decay branch of `update` never clears
it), so on the next tick it is reaped although it overlaps no other body. -/
def c2cexDemo : Circle ℤ := ⟨⟨5, 5, 0, ⟨0, 0⟩⟩, 0, true, 0⟩

theorem reap_without_overlap_cex :
    ¬hitById [c2cexDemo] c2cexDemo ∧ c2cexDemo.info.r = 0 ∧
      PlayGround.loop (⟨100, 100⟩ : Bounds ℤ) [c2cexDemo] = [] := by decide

/-- Demo circle for the C2 witness: spawned at radius `0` with a clear flag,
drifting alone; it is still live two ticks later. -/
def c2demo : Circle ℤ := ⟨⟨5, 5, 0, ⟨1, 0⟩⟩, 3, false, 0⟩

theorem reap_iff_and_persistence_witness :
    (c2demo ∈ PlayGround.handleDeletions [c2demo] ↔
      c2demo ∈ [c2demo] ∧ ¬(c2demo.collided = true ∧ c2demo.info.r ≤ 0)) ∧
    UniqueIds [c2demo] ∧
    c2demo ∈ [c2demo] ∧
    c2demo.collided = false ∧
    c2demo.info.r = 0 ∧
    (∀ k, k < 2 → ∀ ck ∈ PlayGround.ticks (⟨100, 100⟩ : Bounds ℤ) [c2demo] k,
      ck.html_id = c2demo.html_id →
        ¬hitById (PlayGround.ticks (⟨100, 100⟩ : Bounds ℤ) [c2demo] k) ck) ∧
    (∃ ck ∈ PlayGround.ticks (⟨100, 100⟩ : Bounds ℤ) [c2demo] 2,
      ck.html_id = c2demo.html_id ∧ ck.collided = false ∧ ck.info.r = 0) :=
  ⟨(reap_iff_and_persistence (α := ℤ)).1 [c2demo] c2demo, by decide, by decide, rfl, rfl,
    by decide,
    (reap_iff_and_persistence (α := ℤ)).2 (⟨100, 100⟩ : Bounds ℤ) [c2demo] (by decide)
      c2demo (by decide) rfl rfl 2 (by decide)⟩

/-- C6: with all spawn radii positive, a body reaped at tick `n` has strength
`0` at removal time, and some earlier tick strictly shrank its radius (a
radius-decay tick), so no body goes from positive strength to removed within
one tick. -/
theorem decay_before_removal (b : Bounds α) (cs : List (Circle α))
    (hr : ∀ c ∈ cs, 0 < c.info.r) (n : ℕ) (c : Circle α)
    (hc : c ∈ PlayGround.ticks b cs n)
    (hgone : ∀ c2 ∈ PlayGround.ticks b cs (n + 1), c2.html_id ≠ c.html_id) :
    c.strength = 0 ∧
      ∃ k, k < n ∧ ∃ ck ck1 : Circle α,
        ck ∈ PlayGround.ticks b cs k ∧ ck.html_id = c.html_id ∧
        ck1 ∈ PlayGround.ticks b cs (k + 1) ∧ ck1.html_id = c.html_id ∧
        ck1.info.r < ck.info.r := by
  have hgood : ∀ c0 ∈ cs, GoodBody c0 := fun c0 h0 =>
    ⟨le_of_lt (hr c0 h0), fun hle => absurd (hr c0 h0) (not_lt.mpr hle)⟩
  obtain ⟨i, hget⟩ := List.mem_iff_get?.mp hc
  have hnone : tickBody b (hitAnyB (PlayGround.ticks b cs n) i) c = none := by
    cases htb : tickBody b (hitAnyB (PlayGround.ticks b cs n) i) c with
    | none => rfl
    | some c' =>
        exact absurd (tickBody_html_id htb)
          (hgone c' (mem_loop_iff.mpr ⟨i, c, hget, htb⟩))
  have hcr : c.info.r ≤ 0 := (tickBody_eq_none_iff.mp hnone).2
  refine ⟨(good_ticks hgood n c hc).2 hcr, ?_⟩
  rcases radius_chain hgood n c hc with ⟨k, hk, ck, ck1, h1, h2, h3, h4, h5⟩ |
    ⟨c0, hmem, -, hreq⟩
  · exact ⟨k, hk, ck, ck1, h1, h2, h3, h4, h5⟩
  · rw [hreq] at hcr
    exact absurd hcr (not_le.mpr (hr c0 hmem))

/-- Demo circles for the C6 witness: two overlapping strength-0 bodies of
radius one; tick 0 decays both to radius 0, tick 1 reaps both. -/
def c6demoA : Circle ℤ := ⟨⟨20, 20, 1, ⟨0, 0⟩⟩, 0, false, 0⟩

def c6demoB : Circle ℤ := ⟨⟨21, 20, 1, ⟨0, 0⟩⟩, 0, false, 1⟩

theorem decay_before_removal_witness :
    (∀ c ∈ [c6demoA, c6demoB], 0 < c.info.r) ∧
    (⟨⟨20, 20, 0, ⟨0, 0⟩⟩, 0, true, 0⟩ : Circle ℤ) ∈
        PlayGround.ticks (⟨100, 100⟩ : Bounds ℤ) [c6demoA, c6demoB] 1 ∧
    (∀ c2 ∈ PlayGround.ticks (⟨100, 100⟩ : Bounds ℤ) [c6demoA, c6demoB] 2,
      c2.html_id ≠ (⟨⟨20, 20, 0, ⟨0, 0⟩⟩, 0, true, 0⟩ : Circle ℤ).html_id) ∧
    ((⟨⟨20, 20, 0, ⟨0, 0⟩⟩, 0, true, 0⟩ : Circle ℤ).strength = 0 ∧
      ∃ k, k < 1 ∧ ∃ ck ck1 : Circle ℤ,
        ck ∈ PlayGround.ticks (⟨100, 100⟩ : Bounds ℤ) [c6demoA, c6demoB] k ∧
        ck.html_id = (⟨⟨20, 20, 0, ⟨0, 0⟩⟩, 0, true, 0⟩ : Circle ℤ).html_id ∧
        ck1 ∈ PlayGround.ticks (⟨100, 100⟩ : Bounds ℤ) [c6demoA, c6demoB] (k + 1) ∧
        ck1.html_id = (⟨⟨20, 20, 0, ⟨0, 0⟩⟩, 0, true, 0⟩ : Circle ℤ).html_id ∧
        ck1.info.r < ck.info.r) :=
  ⟨by decide, by decide, by decide,
    decay_before_removal (⟨100, 100⟩ : Bounds ℤ) [c6demoA, c6demoB]
      (by decide) 1 _ (by decide) (by decide)⟩

/-- Method `Circle.initialize` (source lines 267-280), restricted to its
simulation state effect: install the velocity
`randomNumberBetween(-MAX_VELOCITY, MAX_VELOCITY) / Math.pow(this.info.r, 0.5)`
per component, with `randX`, `randY` the two random draws; the SVG/DOM
element creation is dropped.  `Math.pow(radius, 0.5)` is the real square
root. -/
noncomputable def Circle.spawn (cx cy radius : ℝ) (strength html_id : ℕ)
    (randX randY : ℝ) : Circle ℝ :=
  { info :=
      { cx := cx
        cy := cy
        r := radius
        velocity := { x := randX / Real.sqrt radius, y := randY / Real.sqrt radius } }
    strength := strength
    collided := false
    html_id := html_id }

/-- Refutation of the unconditional spawn-velocity bound: with the legal draw
`2 ∈ [-MAX_VELOCITY, MAX_VELOCITY]` and the positive spawn radius `1/4`, the
spawned horizontal velocity has magnitude `4 > MAX_VELOCITY`. -/
theorem spawn_velocity_bound_cex :
    -MAX_VELOCITY ≤ (2 : ℝ) ∧ (2 : ℝ) ≤ MAX_VELOCITY ∧ 0 < (1 / 4 : ℝ) ∧
      MAX_VELOCITY <
        |(Circle.spawn 50 50 (1 / 4) 1 0 2 2).info.velocity.x| := by
  have hs : Real.sqrt (1 / 4) = 1 / 2 := by
    rw [show (1 / 4 : ℝ) = (1 / 2) ^ 2 by norm_num,
      Real.sqrt_sq (by norm_num : (0 : ℝ) ≤ 1 / 2)]
  refine ⟨by norm_num [MAX_VELOCITY], by norm_num [MAX_VELOCITY], by norm_num, ?_⟩
  show MAX_VELOCITY < |(2 : ℝ) / Real.sqrt (1 / 4)|
  rw [hs]
  norm_num [MAX_VELOCITY]

/-- C9 (amended): at spawn each velocity component equals the random draw
from `[-MAX_VELOCITY, MAX_VELOCITY]` divided by the square root of the spawn
radius, and its magnitude is bounded by `MAX_VELOCITY` whenever the spawn
radius is at least `1` (for radii below `1` the bound is
`MAX_VELOCITY / sqrt radius`, which exceeds `MAX_VELOCITY`). -/
theorem spawn_velocity_bound (cx cy radius : ℝ) (strength html_id : ℕ)
    (randX randY : ℝ)
    (hx1 : -MAX_VELOCITY ≤ randX) (hx2 : randX ≤ MAX_VELOCITY)
    (hy1 : -MAX_VELOCITY ≤ randY) (hy2 : randY ≤ MAX_VELOCITY)
    (hr : 1 ≤ radius) :
    (Circle.spawn cx cy radius strength html_id randX randY).info.velocity.x =
        randX / Real.sqrt radius ∧
      (Circle.spawn cx cy radius strength html_id randX randY).info.velocity.y =
        randY / Real.sqrt radius ∧
      |(Circle.spawn cx cy radius strength html_id randX randY).info.velocity.x| ≤
        MAX_VELOCITY ∧
      |(Circle.spawn cx cy radius strength html_id randX randY).info.velocity.y| ≤
        MAX_VELOCITY := by
  have hsq : 1 ≤ Real.sqrt radius := by
    rw [show (1 : ℝ) = Real.sqrt 1 from Real.sqrt_one.symm]
    exact Real.sqrt_le_sqrt hr
  have hbx : |randX| ≤ MAX_VELOCITY := abs_le.mpr ⟨hx1, hx2⟩
  have hby : |randY| ≤ MAX_VELOCITY := abs_le.mpr ⟨hy1, hy2⟩
  refine ⟨rfl, rfl, ?_, ?_⟩
  · show |randX / Real.sqrt radius| ≤ MAX_VELOCITY
    rw [abs_div, abs_of_nonneg (Real.sqrt_nonneg radius)]
    exact le_trans (div_le_self (abs_nonneg _) hsq) hbx
  · show |randY / Real.sqrt radius| ≤ MAX_VELOCITY
    rw [abs_div, abs_of_nonneg (Real.sqrt_nonneg radius)]
    exact le_trans (div_le_self (abs_nonneg _) hsq) hby

theorem spawn_velocity_bound_witness :
    (-MAX_VELOCITY ≤ (2 : ℝ)) ∧ ((2 : ℝ) ≤ MAX_VELOCITY) ∧
      (-MAX_VELOCITY ≤ (0 : ℝ)) ∧ ((0 : ℝ) ≤ MAX_VELOCITY) ∧ (1 ≤ (4 : ℝ)) ∧
      ((Circle.spawn 50 50 4 1 0 2 0).info.velocity.x = 2 / Real.sqrt 4 ∧
        (Circle.spawn 50 50 4 1 0 2 0).info.velocity.y = 0 / Real.sqrt 4 ∧
        |(Circle.spawn 50 50 4 1 0 2 0).info.velocity.x| ≤ MAX_VELOCITY ∧
        |(Circle.spawn 50 50 4 1 0 2 0).info.velocity.y| ≤ MAX_VELOCITY) :=
  ⟨by norm_num [MAX_VELOCITY], by norm_num [MAX_VELOCITY], by norm_num [MAX_VELOCITY],
    by norm_num [MAX_VELOCITY], by norm_num,
    spawn_velocity_bound 50 50 4 1 0 2 0 (by norm_num [MAX_VELOCITY])
      (by norm_num [MAX_VELOCITY]) (by norm_num [MAX_VELOCITY])
      (by norm_num [MAX_VELOCITY]) (by norm_num)⟩

end JsBalls
